import Mathlib

/-!
Verification of the Larry Williams swing-trading bot core: the three-tier
swing-point detector, the signal resolver, the live position-risk engine and
the backtesting engine.  Each definition is a shallow embedding of the
corresponding Python function (`SwingDetector`, `SwingTradingBot
.check_stop_loss_take_profit`, `SwingBacktester`); prices are modelled as
rationals, pandas sparse series as chronologically ordered lists of
(index, value) pairs.
-/

namespace LWBot

/-- One OHLC candle; only the columns the core logic reads are kept. -/
structure Candle where
  high : ℚ
  low : ℚ
  close : ℚ
deriving DecidableEq, Repr

/-- Indices `i` flagged by the short-term low scan
(`for i in range(1, len(lows) - 1): if lows[i] < lows[i-1] and lows[i] < lows[i+1]`). -/
def swingLowIdxs (lows : List ℚ) : List Nat :=
  (List.range lows.length).filter fun i =>
    decide (1 ≤ i) && decide (i + 1 < lows.length) &&
      decide (lows.getD i 0 < lows.getD (i - 1) 0) &&
      decide (lows.getD i 0 < lows.getD (i + 1) 0)

/-- Indices `i` flagged by the short-term high scan
(`highs[i] > highs[i-1] and highs[i] > highs[i+1]`). -/
def swingHighIdxs (highs : List ℚ) : List Nat :=
  (List.range highs.length).filter fun i =>
    decide (1 ≤ i) && decide (i + 1 < highs.length) &&
      decide (highs.getD (i - 1) 0 < highs.getD i 0) &&
      decide (highs.getD (i + 1) 0 < highs.getD i 0)

/-- Positions `j` of the dropna subsequence `pts` kept by the promotion loop
for highs (`curr_val > prev_val and curr_val > next_val` over the
subsequence of tier-k high points). -/
def promoteHighIdxs (pts : List (Nat × ℚ)) : List Nat :=
  (List.range pts.length).filter fun j =>
    decide (1 ≤ j) && decide (j + 1 < pts.length) &&
      decide ((pts.getD (j - 1) (0, 0)).2 < (pts.getD j (0, 0)).2) &&
      decide ((pts.getD (j + 1) (0, 0)).2 < (pts.getD j (0, 0)).2)

/-- Positions `j` of the dropna subsequence `pts` kept by the promotion loop
for lows (`curr_val < prev_val and curr_val < next_val`). -/
def promoteLowIdxs (pts : List (Nat × ℚ)) : List Nat :=
  (List.range pts.length).filter fun j =>
    decide (1 ≤ j) && decide (j + 1 < pts.length) &&
      decide ((pts.getD j (0, 0)).2 < (pts.getD (j - 1) (0, 0)).2) &&
      decide ((pts.getD j (0, 0)).2 < (pts.getD (j + 1) (0, 0)).2)

/-- Tier-(k+1) high points derived from the tier-k high subsequence. -/
def promoteHighs (pts : List (Nat × ℚ)) : List (Nat × ℚ) :=
  (promoteHighIdxs pts).map fun j => pts.getD j (0, 0)

/-- Tier-(k+1) low points derived from the tier-k low subsequence. -/
def promoteLows (pts : List (Nat × ℚ)) : List (Nat × ℚ) :=
  (promoteLowIdxs pts).map fun j => pts.getD j (0, 0)

/-- The sparse series `self.short_term_highs` after
`detect_short_term_swings`, as chronological (index, price) pairs. -/
def short_term_highs (s : List Candle) : List (Nat × ℚ) :=
  (swingHighIdxs (s.map Candle.high)).map fun i => (i, (s.map Candle.high).getD i 0)

/-- The sparse series `self.short_term_lows` after `detect_short_term_swings`. -/
def short_term_lows (s : List Candle) : List (Nat × ℚ) :=
  (swingLowIdxs (s.map Candle.low)).map fun i => (i, (s.map Candle.low).getD i 0)

/-- `self.intermediate_highs` after `detect_intermediate_swings`. -/
def intermediate_highs (s : List Candle) : List (Nat × ℚ) :=
  promoteHighs (short_term_highs s)

/-- `self.intermediate_lows` after `detect_intermediate_swings`. -/
def intermediate_lows (s : List Candle) : List (Nat × ℚ) :=
  promoteLows (short_term_lows s)

/-- `self.long_term_highs` after `detect_long_term_swings`. -/
def long_term_highs (s : List Candle) : List (Nat × ℚ) :=
  promoteHighs (intermediate_highs s)

/-- `self.long_term_lows` after `detect_long_term_swings`. -/
def long_term_lows (s : List Candle) : List (Nat × ℚ) :=
  promoteLows (intermediate_lows s)

/-- Directional signal kinds returned by `get_latest_signal`
(the Python strings BUY / SELL; the None case is `Option.none`). -/
inductive SignalType where
  | BUY
  | SELL
deriving DecidableEq, Repr

/-- The resolution tail of `SwingDetector.get_latest_signal`: take
`last_valid_index` of each sparse series (the last element of the
chronological pair list) and resolve BUY/SELL by recency; the comparison
`last_low_idx > last_high_idx` sends an equal-index tie to SELL. -/
def resolve_signal (highs lows : List (Nat × ℚ)) : Option (SignalType × ℚ) :=
  match highs.getLast?, lows.getLast? with
  | none, none => none
  | some h, none => some (.SELL, h.2)
  | none, some l => some (.BUY, l.2)
  | some h, some l => if h.1 < l.1 then some (.BUY, l.2) else some (.SELL, h.2)

/-- `SwingDetector.get_latest_signal(level)`: the exact string longterm
selects the long-term tier, any other level string the intermediate one;
then the last swing points of the chosen tier decide the signal. -/
def get_latest_signal (s : List Candle) (level : String) : Option (SignalType × ℚ) :=
  let highs := if level = "longterm" then long_term_highs s else intermediate_highs s
  let lows := if level = "longterm" then long_term_lows s else intermediate_lows s
  resolve_signal highs lows

/-- The risk-management slice of `BotConfig`. -/
structure BotConfig where
  LEVERAGE : ℚ
  USE_STOP_LOSS : Bool
  STOP_LOSS_PCT : ℚ
  USE_TAKE_PROFIT : Bool
  TAKE_PROFIT_PCT : ℚ
  USE_TRAILING_STOP : Bool
  TRAILING_STOP_PCT : ℚ
  MIN_PROFIT_FOR_TRAILING : ℚ
deriving DecidableEq, Repr

/-- Position direction (the Python strings LONG / SHORT). -/
inductive PositionSide where
  | LONG
  | SHORT
deriving DecidableEq, Repr

/-- The position-related instance state of `SwingTradingBot`. -/
structure BotState where
  current_position : Option PositionSide
  position_entry_price : Option ℚ
  position_peak_price : Option ℚ
deriving DecidableEq, Repr

/-- Which of the three exit rules produced the returned reason string. -/
inductive ExitReason where
  | stopLoss
  | takeProfit
  | trailingStop
deriving DecidableEq, Repr

/-- The unleveraged PnL percentage computed at the top of
`check_stop_loss_take_profit`. -/
def pnl_pct_of (side : PositionSide) (entry current : ℚ) : ℚ :=
  match side with
  | .LONG => (current - entry) / entry * 100
  | .SHORT => (entry - current) / entry * 100

/-- The peak-price update performed inside the trailing-stop block:
initialize to the current price when unset, otherwise move only in the
favorable direction. -/
def update_peak (side : PositionSide) (peak : Option ℚ) (current : ℚ) : ℚ :=
  match peak with
  | none => current
  | some p =>
    match side with
    | .LONG => if p < current then current else p
    | .SHORT => if current < p then current else p

/-- `SwingTradingBot.check_stop_loss_take_profit(current_price)`.
Returns the bot state after the call (the method mutates
`position_peak_price`) together with the `(should_close, reason)` pair;
the reason is abstracted to the rule that fired. -/
def check_stop_loss_take_profit (cfg : BotConfig) (st : BotState) (current_price : ℚ) :
    BotState × Bool × Option ExitReason :=
  match st.current_position, st.position_entry_price with
  | some side, some entry =>
    let pnl_lev := pnl_pct_of side entry current_price * cfg.LEVERAGE
    if cfg.USE_STOP_LOSS = true ∧ pnl_lev ≤ -cfg.STOP_LOSS_PCT then
      (st, true, some .stopLoss)
    else if cfg.USE_TAKE_PROFIT = true ∧ cfg.TAKE_PROFIT_PCT ≤ pnl_lev then
      (st, true, some .takeProfit)
    else if cfg.USE_TRAILING_STOP = true then
      let peak := update_peak side st.position_peak_price current_price
      let st2 : BotState := { st with position_peak_price := some peak }
      if cfg.MIN_PROFIT_FOR_TRAILING ≤ pnl_lev then
        let drop_from_peak :=
          match side with
          | .LONG => (peak - current_price) / peak * 100
          | .SHORT => (current_price - peak) / peak * 100
        if cfg.TRAILING_STOP_PCT ≤ drop_from_peak then (st2, true, some .trailingStop)
        else (st2, false, none)
      else (st2, false, none)
    else (st, false, none)
  | _, _ => (st, false, none)

/-- A row of the `self.trades` list in `SwingBacktester`. -/
structure Trade where
  entry_date : Nat
  exit_date : Nat
  type : PositionSide
  entry_price : ℚ
  exit_price : ℚ
  pnl : ℚ
  capital : ℚ
deriving DecidableEq, Repr

/-- The mutable state threaded through `SwingBacktester.run_backtest`:
position (1 long, -1 short, 0 flat), entry price and date, running
capital, the append-only trade list and the equity curve
(date, mark-to-market equity, position). -/
structure BTState where
  position : Int
  entry_price : ℚ
  entry_date : Nat
  capital : ℚ
  trades : List Trade
  equity_curve : List (Nat × ℚ × Int)
deriving DecidableEq, Repr

/-- `SwingBacktester.generate_signals` at one index: 1 where the chosen
tier has a low, -1 where it has a high (highs are assigned after lows in
the source, so a high overrides a low at the same index), else 0. -/
def signal_at (highsL lowsL : List (Nat × ℚ)) (i : Nat) : Int :=
  if highsL.any fun p => p.1 == i then -1
  else if lowsL.any fun p => p.1 == i then 1
  else 0

/-- The (index, close, signal) stream `run_backtest` iterates over, after
the tier selection of `generate_signals` (long-term if `use_long_term`,
else intermediate if `use_intermediate`, else short-term). -/
def backtest_inputs (s : List Candle) (use_intermediate use_long_term : Bool) :
    List (Nat × ℚ × Int) :=
  let cols :=
    if use_long_term then (long_term_highs s, long_term_lows s)
    else if use_intermediate then (intermediate_highs s, intermediate_lows s)
    else (short_term_highs s, short_term_lows s)
  (List.range s.length).map fun i =>
    (i, (s.map Candle.close).getD i 0, signal_at cols.1 cols.2 i)

/-- The mark-to-market equity recorded at the top of the loop body:
realized capital plus the unleveraged unrealized PnL
`(current_price - entry_price) * position` of any open position. -/
def mark_equity (st : BTState) (current_price : ℚ) : ℚ :=
  if st.position ≠ 0 then st.capital + (current_price - st.entry_price) * (st.position : ℚ)
  else st.capital

/-- One iteration of the loop body of `run_backtest`: record the equity
sample, then handle the signal (close an opposite position, crediting its
PnL, and open the new one). -/
def backtest_step (st : BTState) (c : Nat × ℚ × Int) : BTState :=
  let i := c.1
  let current_price := c.2.1
  let sig := c.2.2
  let st1 : BTState :=
    { st with equity_curve := st.equity_curve ++ [(i, mark_equity st current_price, st.position)] }
  if sig = 1 ∧ st1.position ≤ 0 then
    let st2 : BTState :=
      if st1.position = -1 then
        let pnl := st1.entry_price - current_price
        let cap := st1.capital + pnl
        { st1 with
            capital := cap,
            trades := st1.trades ++
              [⟨st1.entry_date, i, .SHORT, st1.entry_price, current_price, pnl, cap⟩] }
      else st1
    { st2 with position := 1, entry_price := current_price, entry_date := i }
  else if sig = -1 ∧ 0 ≤ st1.position then
    let st2 : BTState :=
      if st1.position = 1 then
        let pnl := current_price - st1.entry_price
        let cap := st1.capital + pnl
        { st1 with
            capital := cap,
            trades := st1.trades ++
              [⟨st1.entry_date, i, .LONG, st1.entry_price, current_price, pnl, cap⟩] }
      else st1
    { st2 with position := -1, entry_price := current_price, entry_date := i }
  else st1

/-- The state of a fresh `SwingBacktester` before the loop. -/
def initial_state (initial_capital : ℚ) : BTState :=
  ⟨0, 0, 0, initial_capital, [], []⟩

/-- The final force-close after the loop of `run_backtest`: if a position
is still open, close it at the last close price and append the record. -/
def close_final (s : List Candle) (st : BTState) : BTState :=
  if st.position ≠ 0 then
    let final_price := (s.map Candle.close).getLast?.getD 0
    let pnl :=
      if st.position = 1 then final_price - st.entry_price
      else st.entry_price - final_price
    let cap := st.capital + pnl
    { st with
        capital := cap,
        trades := st.trades ++
          [⟨st.entry_date, s.length - 1, if st.position = 1 then .LONG else .SHORT,
            st.entry_price, final_price, pnl, cap⟩] }
  else st

/-- `SwingBacktester.run_backtest` up to its trailing `calculate_metrics`
call: the loop over all candles followed by the final force-close. -/
def run_backtest (s : List Candle) (initial_capital : ℚ)
    (use_intermediate use_long_term : Bool) : BTState :=
  close_final s
    ((backtest_inputs s use_intermediate use_long_term).foldl backtest_step
      (initial_state initial_capital))

/-- The equity samples the loop appends while consuming the input list
`L` from state `st`, in order. -/
def equity_samples (st : BTState) : List (Nat × ℚ × Int) → List (Nat × ℚ × Int)
  | [] => []
  | x :: xs => (x.1, mark_equity st x.2.1, st.position) :: equity_samples (backtest_step st x) xs

/-- A trade record whose PnL is the raw unleveraged price difference:
exit − entry for LONG, entry − exit for SHORT. -/
def unleveraged_pnl (t : Trade) : Prop :=
  t.pnl = if t.type = .LONG then t.exit_price - t.entry_price else t.entry_price - t.exit_price

/-- The scalar fields of the dict built by
`SwingBacktester.calculate_metrics` (the two dataframe fields are
omitted). -/
structure Metrics where
  Total_Trades : Nat
  Winning_Trades : Nat
  Losing_Trades : Nat
  Win_Rate : ℚ
  Total_Return : ℚ
  Total_Return_Pct : ℚ
  Max_Drawdown : ℚ
  Profit_Factor : ℚ
  Average_Win : ℚ
  Average_Loss : ℚ
deriving DecidableEq, Repr

/-- Helper for the running maximum: the tail of a cummax whose running
peak so far is `m`. -/
def cummaxAux (m : ℚ) : List ℚ → List ℚ
  | [] => []
  | x :: xs => max m x :: cummaxAux (max m x) xs

/-- Running maximum, mirroring `equity_df['Equity'].cummax()`. -/
def cummax : List ℚ → List ℚ
  | [] => []
  | x :: xs => x :: cummaxAux x xs

/-- Sum of the PnL column of a trade list. -/
def sum_pnl (ts : List Trade) : ℚ := (ts.map Trade.pnl).sum

/-- `SwingBacktester.calculate_metrics`: all-zero record for an empty
trade list, otherwise the win/loss counts, returns, drawdown and
profit-factor computations over the trade list and equity curve. -/
def calculate_metrics (initial_capital capital : ℚ) (trades : List Trade)
    (equity_curve : List (Nat × ℚ × Int)) : Metrics :=
  if trades = [] then ⟨0, 0, 0, 0, 0, 0, 0, 0, 0, 0⟩
  else
    let winning := trades.filter fun t => decide (0 < t.pnl)
    let losing := trades.filter fun t => decide (t.pnl < 0)
    let total_return := capital - initial_capital
    let equity := equity_curve.map fun e => e.2.1
    let drawdowns := List.zipWith (fun e p => (e - p) / p) equity (cummax equity)
    let max_drawdown := (drawdowns.min?.getD 0) * 100
    let gross_profit := if 0 < winning.length then sum_pnl winning else 0
    let gross_loss := if 0 < losing.length then abs (sum_pnl losing) else 0
    let profit_factor := if 0 < gross_loss then gross_profit / gross_loss else 0
    ⟨trades.length, winning.length, losing.length,
      if 0 < trades.length then (winning.length : ℚ) / (trades.length : ℚ) * 100 else 0,
      total_return, total_return / initial_capital * 100,
      max_drawdown, profit_factor,
      if 0 < winning.length then sum_pnl winning / (winning.length : ℚ) else 0,
      if 0 < losing.length then sum_pnl losing / (losing.length : ℚ) else 0⟩

/-- `run_backtest` composed with its final `calculate_metrics` call. -/
def run_backtest_metrics (s : List Candle) (initial_capital : ℚ)
    (use_intermediate use_long_term : Bool) : Metrics :=
  let st := run_backtest s initial_capital use_intermediate use_long_term
  calculate_metrics initial_capital st.capital st.trades st.equity_curve

/-- A 15-candle series whose intermediate tier holds exactly one low
(close 90 at index 4) followed by exactly one high (close 110 at
index 10), with the final close back at 110. -/
def btSeries : List Candle :=
  [⟨100, 100, 100⟩, ⟨100, 100, 100⟩, ⟨100, 95, 100⟩, ⟨100, 100, 100⟩,
   ⟨100, 90, 90⟩, ⟨100, 100, 100⟩, ⟨100, 95, 100⟩, ⟨100, 100, 100⟩,
   ⟨105, 100, 100⟩, ⟨100, 100, 100⟩, ⟨110, 100, 110⟩, ⟨100, 100, 110⟩,
   ⟨105, 100, 110⟩, ⟨100, 100, 110⟩, ⟨100, 100, 110⟩]

/-- A 15-candle series with swing points at every tier: one long-term
high (index 7, price 17) and one long-term low (index 7, price 3). -/
def ltSeries : List Candle :=
  [⟨10, 9, 5⟩, ⟨15, 5, 5⟩, ⟨10, 9, 5⟩, ⟨16, 4, 5⟩, ⟨10, 9, 5⟩,
   ⟨15, 5, 5⟩, ⟨10, 9, 5⟩, ⟨17, 3, 5⟩, ⟨10, 9, 5⟩, ⟨15, 5, 5⟩,
   ⟨10, 9, 5⟩, ⟨16, 4, 5⟩, ⟨10, 9, 5⟩, ⟨15, 5, 5⟩, ⟨10, 9, 5⟩]

/-- A flat three-candle series: no swing point at any tier. -/
def flatSeries : List Candle := [⟨10, 9, 5⟩, ⟨10, 9, 5⟩, ⟨10, 9, 5⟩]

/-- A two-candle series, shorter than the three bars detection needs. -/
def tinySeries : List Candle := [⟨10, 9, 5⟩, ⟨10, 9, 5⟩]

/-- Flat highs with a low zigzag: one intermediate low (index 3, 4) and
no intermediate high. -/
def onlyLowSeries : List Candle :=
  [⟨10, 9, 5⟩, ⟨10, 5, 5⟩, ⟨10, 9, 5⟩, ⟨10, 4, 5⟩, ⟨10, 9, 5⟩, ⟨10, 5, 5⟩, ⟨10, 9, 5⟩]

/-- Flat lows with a high zigzag: one intermediate high (index 3, 16) and
no intermediate low. -/
def onlyHighSeries : List Candle :=
  [⟨10, 9, 5⟩, ⟨15, 9, 5⟩, ⟨10, 9, 5⟩, ⟨16, 9, 5⟩, ⟨10, 9, 5⟩, ⟨15, 9, 5⟩, ⟨10, 9, 5⟩]

/-- An early high zigzag then a late low zigzag: intermediate high
(index 3, 16) and a more recent intermediate low (index 7, 4). -/
def mixedSeries : List Candle :=
  [⟨10, 9, 5⟩, ⟨15, 9, 5⟩, ⟨10, 9, 5⟩, ⟨16, 9, 5⟩, ⟨10, 9, 5⟩,
   ⟨15, 5, 5⟩, ⟨10, 9, 5⟩, ⟨10, 4, 5⟩, ⟨10, 9, 5⟩, ⟨10, 5, 5⟩, ⟨10, 9, 5⟩]


/-- Leverage 1 with only the trailing stop enabled (3% after +2%). -/
def trailCfg : BotConfig := ⟨1, false, 5, false, 10, true, 3, 2⟩

/-- Leverage 1 with the 5% stop loss and the trailing stop both enabled. -/
def slTrailCfg : BotConfig := ⟨1, true, 5, false, 10, true, 3, 2⟩

/-- Leverage 3 with only the 5% stop loss enabled. -/
def lev3slCfg : BotConfig := ⟨3, true, 5, false, 10, false, 3, 2⟩

/-- An open LONG position entered at 100 with no peak recorded yet. -/
def long100 : BotState := ⟨some .LONG, some 100, none⟩

/-! ### Membership characterizations of the swing scans -/

theorem mem_swingLowIdxs (lows : List ℚ) (i : Nat) :
    i ∈ swingLowIdxs lows ↔
      1 ≤ i ∧ i + 1 < lows.length ∧
        lows.getD i 0 < lows.getD (i - 1) 0 ∧ lows.getD i 0 < lows.getD (i + 1) 0 := by
  simp only [swingLowIdxs, List.mem_filter, List.mem_range, Bool.and_eq_true,
    decide_eq_true_eq]
  constructor
  · rintro ⟨-, ⟨⟨h1, h2⟩, h3⟩, h4⟩
    exact ⟨h1, h2, h3, h4⟩
  · rintro ⟨h1, h2, h3, h4⟩
    exact ⟨by omega, ⟨⟨h1, h2⟩, h3⟩, h4⟩

theorem mem_swingHighIdxs (highs : List ℚ) (i : Nat) :
    i ∈ swingHighIdxs highs ↔
      1 ≤ i ∧ i + 1 < highs.length ∧
        highs.getD (i - 1) 0 < highs.getD i 0 ∧ highs.getD (i + 1) 0 < highs.getD i 0 := by
  simp only [swingHighIdxs, List.mem_filter, List.mem_range, Bool.and_eq_true,
    decide_eq_true_eq]
  constructor
  · rintro ⟨-, ⟨⟨h1, h2⟩, h3⟩, h4⟩
    exact ⟨h1, h2, h3, h4⟩
  · rintro ⟨h1, h2, h3, h4⟩
    exact ⟨by omega, ⟨⟨h1, h2⟩, h3⟩, h4⟩

theorem mem_promoteHighIdxs (pts : List (Nat × ℚ)) (j : Nat) :
    j ∈ promoteHighIdxs pts ↔
      1 ≤ j ∧ j + 1 < pts.length ∧
        (pts.getD (j - 1) (0, 0)).2 < (pts.getD j (0, 0)).2 ∧
        (pts.getD (j + 1) (0, 0)).2 < (pts.getD j (0, 0)).2 := by
  simp only [promoteHighIdxs, List.mem_filter, List.mem_range, Bool.and_eq_true,
    decide_eq_true_eq]
  constructor
  · rintro ⟨-, ⟨⟨h1, h2⟩, h3⟩, h4⟩
    exact ⟨h1, h2, h3, h4⟩
  · rintro ⟨h1, h2, h3, h4⟩
    exact ⟨by omega, ⟨⟨h1, h2⟩, h3⟩, h4⟩

theorem mem_promoteLowIdxs (pts : List (Nat × ℚ)) (j : Nat) :
    j ∈ promoteLowIdxs pts ↔
      1 ≤ j ∧ j + 1 < pts.length ∧
        (pts.getD j (0, 0)).2 < (pts.getD (j - 1) (0, 0)).2 ∧
        (pts.getD j (0, 0)).2 < (pts.getD (j + 1) (0, 0)).2 := by
  simp only [promoteLowIdxs, List.mem_filter, List.mem_range, Bool.and_eq_true,
    decide_eq_true_eq]
  constructor
  · rintro ⟨-, ⟨⟨h1, h2⟩, h3⟩, h4⟩
    exact ⟨h1, h2, h3, h4⟩
  · rintro ⟨h1, h2, h3, h4⟩
    exact ⟨by omega, ⟨⟨h1, h2⟩, h3⟩, h4⟩

theorem getD_mem_of_lt {α : Type} (l : List α) (d : α) {n : Nat} (h : n < l.length) :
    l.getD n d ∈ l := by
  rw [List.getD_eq_getElem?_getD, List.getElem?_eq_getElem h]
  exact List.getElem_mem h

theorem mem_promoteHighs_sub (pts : List (Nat × ℚ)) (x : Nat × ℚ)
    (hx : x ∈ promoteHighs pts) : x ∈ pts := by
  simp only [promoteHighs, List.mem_map] at hx
  obtain ⟨j, hj, rfl⟩ := hx
  have hlen : j + 1 < pts.length := ((mem_promoteHighIdxs pts j).1 hj).2.1
  exact getD_mem_of_lt pts (0, 0) (by omega)

theorem mem_promoteLows_sub (pts : List (Nat × ℚ)) (x : Nat × ℚ)
    (hx : x ∈ promoteLows pts) : x ∈ pts := by
  simp only [promoteLows, List.mem_map] at hx
  obtain ⟨j, hj, rfl⟩ := hx
  have hlen : j + 1 < pts.length := ((mem_promoteLowIdxs pts j).1 hj).2.1
  exact getD_mem_of_lt pts (0, 0) (by omega)

theorem mem_short_term_lows (s : List Candle) (i : Nat) (v : ℚ) :
    (i, v) ∈ short_term_lows s ↔
      i ∈ swingLowIdxs (s.map Candle.low) ∧ v = (s.map Candle.low).getD i 0 := by
  simp only [short_term_lows, List.mem_map, Prod.mk.injEq]
  constructor
  · rintro ⟨j, hj, rfl, rfl⟩
    exact ⟨hj, rfl⟩
  · rintro ⟨hj, rfl⟩
    exact ⟨i, hj, rfl, rfl⟩

theorem mem_short_term_highs (s : List Candle) (i : Nat) (v : ℚ) :
    (i, v) ∈ short_term_highs s ↔
      i ∈ swingHighIdxs (s.map Candle.high) ∧ v = (s.map Candle.high).getD i 0 := by
  simp only [short_term_highs, List.mem_map, Prod.mk.injEq]
  constructor
  · rintro ⟨j, hj, rfl, rfl⟩
    exact ⟨hj, rfl⟩
  · rintro ⟨hj, rfl⟩
    exact ⟨i, hj, rfl, rfl⟩

/-- Claim C6: short-term detection records a low at index `i` exactly when
`i` is interior (1 ≤ i ≤ N-2) and `low[i]` is strictly below both
neighbors, and a high exactly when `high[i]` is strictly above both
neighbors, storing the bar value; the endpoints 0 and N-1 never qualify,
and an equal-valued neighbor disqualifies a bar at the raw tier and a
point at every promotion tier. -/
theorem short_term_swing_rule (s : List Candle) (i : Nat) :
    (∀ v, ((i, v) ∈ short_term_lows s ↔
      1 ≤ i ∧ i + 1 < s.length ∧
        (s.map Candle.low).getD i 0 < (s.map Candle.low).getD (i - 1) 0 ∧
        (s.map Candle.low).getD i 0 < (s.map Candle.low).getD (i + 1) 0 ∧
        v = (s.map Candle.low).getD i 0)) ∧
    (∀ v, ((i, v) ∈ short_term_highs s ↔
      1 ≤ i ∧ i + 1 < s.length ∧
        (s.map Candle.high).getD (i - 1) 0 < (s.map Candle.high).getD i 0 ∧
        (s.map Candle.high).getD (i + 1) 0 < (s.map Candle.high).getD i 0 ∧
        v = (s.map Candle.high).getD i 0)) ∧
    (i = 0 ∨ i + 1 = s.length →
      (∀ v, (i, v) ∉ short_term_lows s) ∧ (∀ v, (i, v) ∉ short_term_highs s)) ∧
    ((s.map Candle.low).getD i 0 = (s.map Candle.low).getD (i - 1) 0 ∨
        (s.map Candle.low).getD i 0 = (s.map Candle.low).getD (i + 1) 0 →
      i ∉ swingLowIdxs (s.map Candle.low)) ∧
    ((s.map Candle.high).getD i 0 = (s.map Candle.high).getD (i - 1) 0 ∨
        (s.map Candle.high).getD i 0 = (s.map Candle.high).getD (i + 1) 0 →
      i ∉ swingHighIdxs (s.map Candle.high)) ∧
    (∀ pts : List (Nat × ℚ),
      (pts.getD i (0, 0)).2 = (pts.getD (i - 1) (0, 0)).2 ∨
        (pts.getD i (0, 0)).2 = (pts.getD (i + 1) (0, 0)).2 →
      i ∉ promoteHighIdxs pts ∧ i ∉ promoteLowIdxs pts) := by
  have hlen : (s.map Candle.low).length = s.length := List.length_map ..
  have hlenh : (s.map Candle.high).length = s.length := List.length_map ..
  refine ⟨?_, ?_, ?_, ?_, ?_, ?_⟩
  · intro v
    rw [mem_short_term_lows, mem_swingLowIdxs, hlen]
    constructor
    · rintro ⟨⟨h1, h2, h3, h4⟩, h5⟩
      exact ⟨h1, h2, h3, h4, h5⟩
    · rintro ⟨h1, h2, h3, h4, h5⟩
      exact ⟨⟨h1, h2, h3, h4⟩, h5⟩
  · intro v
    rw [mem_short_term_highs, mem_swingHighIdxs, hlenh]
    constructor
    · rintro ⟨⟨h1, h2, h3, h4⟩, h5⟩
      exact ⟨h1, h2, h3, h4, h5⟩
    · rintro ⟨h1, h2, h3, h4, h5⟩
      exact ⟨⟨h1, h2, h3, h4⟩, h5⟩
  · intro hend
    constructor
    · intro v hv
      have := ((mem_short_term_lows s i v).1 hv).1
      rw [mem_swingLowIdxs, hlen] at this
      omega
    · intro v hv
      have := ((mem_short_term_highs s i v).1 hv).1
      rw [mem_swingHighIdxs, hlenh] at this
      omega
  · intro heq hmem
    rw [mem_swingLowIdxs] at hmem
    rcases heq with h | h
    · exact absurd hmem.2.2.1 (by rw [h]; exact lt_irrefl _)
    · exact absurd hmem.2.2.2 (by rw [h]; exact lt_irrefl _)
  · intro heq hmem
    rw [mem_swingHighIdxs] at hmem
    rcases heq with h | h
    · exact absurd hmem.2.2.1 (by rw [h]; exact lt_irrefl _)
    · exact absurd hmem.2.2.2 (by rw [h]; exact lt_irrefl _)
  · intro pts heq
    constructor
    · intro hmem
      rw [mem_promoteHighIdxs] at hmem
      rcases heq with h | h
      · exact absurd hmem.2.2.1 (by rw [h]; exact lt_irrefl _)
      · exact absurd hmem.2.2.2 (by rw [h]; exact lt_irrefl _)
    · intro hmem
      rw [mem_promoteLowIdxs] at hmem
      rcases heq with h | h
      · exact absurd hmem.2.2.1 (by rw [h]; exact lt_irrefl _)
      · exact absurd hmem.2.2.2 (by rw [h]; exact lt_irrefl _)

/-- Concrete instance of the short-term detection rule on a sample series:
index 3 of `ltSeries` is a recorded low, index 0 never qualifies, and an
equal-valued neighbor pair is never promoted. -/
theorem short_term_swing_rule_witness :
    (3, (4 : ℚ)) ∈ short_term_lows ltSeries ∧
      (∀ v, (0, v) ∉ short_term_lows ltSeries) ∧
      1 ∉ promoteHighIdxs [(1, (5 : ℚ)), (3, 5), (5, 7)] := by
  refine ⟨?_, ?_, ?_⟩
  · exact ((short_term_swing_rule ltSeries 3).1 4).2 (by decide)
  · exact ((short_term_swing_rule ltSeries 0).2.2.1 (Or.inl rfl)).1
  · exact ((short_term_swing_rule ltSeries 1).2.2.2.2.2
      [(1, (5 : ℚ)), (3, 5), (5, 7)] (Or.inl (by decide))).1

/-- Claim C5: each promotion tier only keeps indices of the tier below:
an intermediate high/low index is a short-term high/low index, and a
long-term high/low index is an intermediate one. -/
theorem tier_promotion_subset (s : List Candle) (i : Nat) :
    ((∃ v, (i, v) ∈ intermediate_highs s) → ∃ v, (i, v) ∈ short_term_highs s) ∧
    ((∃ v, (i, v) ∈ intermediate_lows s) → ∃ v, (i, v) ∈ short_term_lows s) ∧
    ((∃ v, (i, v) ∈ long_term_highs s) → ∃ v, (i, v) ∈ intermediate_highs s) ∧
    ((∃ v, (i, v) ∈ long_term_lows s) → ∃ v, (i, v) ∈ intermediate_lows s) := by
  refine ⟨?_, ?_, ?_, ?_⟩
  · rintro ⟨v, hv⟩
    exact ⟨v, mem_promoteHighs_sub _ _ hv⟩
  · rintro ⟨v, hv⟩
    exact ⟨v, mem_promoteLows_sub _ _ hv⟩
  · rintro ⟨v, hv⟩
    exact ⟨v, mem_promoteHighs_sub _ _ hv⟩
  · rintro ⟨v, hv⟩
    exact ⟨v, mem_promoteLows_sub _ _ hv⟩

/-- Concrete instance of the tier-subset property on `ltSeries`, whose
index 7 carries swing points at all three tiers. -/
theorem tier_promotion_subset_witness :
    (∃ v, (7, v) ∈ short_term_highs ltSeries) ∧
      (∃ v, (7, v) ∈ intermediate_lows ltSeries) := by
  constructor
  · exact (tier_promotion_subset ltSeries 7).1 ((tier_promotion_subset ltSeries 7).2.2.1
      ⟨17, by decide⟩)
  · exact (tier_promotion_subset ltSeries 7).2.2.2 ⟨3, by decide⟩


/-! ### Signal resolution -/

theorem resolve_signal_spec (highs lows : List (Nat × ℚ)) :
    (resolve_signal highs lows = none ↔ highs = [] ∧ lows = []) ∧
    (∀ l, highs = [] → lows.getLast? = some l →
      resolve_signal highs lows = some (.BUY, l.2)) ∧
    (∀ h, lows = [] → highs.getLast? = some h →
      resolve_signal highs lows = some (.SELL, h.2)) ∧
    (∀ h l, highs.getLast? = some h → lows.getLast? = some l →
      (h.1 < l.1 → resolve_signal highs lows = some (.BUY, l.2)) ∧
      (l.1 < h.1 → resolve_signal highs lows = some (.SELL, h.2)) ∧
      (l.1 = h.1 → resolve_signal highs lows = some (.SELL, h.2))) := by
  rcases hH : highs.getLast? with _ | h <;> rcases hL : lows.getLast? with _ | l
  · have h1 : highs = [] := List.getLast?_eq_none_iff.1 hH
    have h2 : lows = [] := List.getLast?_eq_none_iff.1 hL
    have hres : resolve_signal highs lows = none := by
      simp only [resolve_signal, hH, hL]
    refine ⟨by rw [hres]; simp [h1, h2], ?_, ?_, ?_⟩
    · intro l _ hsome
      exact Option.noConfusion hsome
    · intro h _ hsome
      exact Option.noConfusion hsome
    · intro h l hsome _
      exact Option.noConfusion hsome
  · have h1 : highs = [] := List.getLast?_eq_none_iff.1 hH
    have hlne : lows ≠ [] := by
      intro hc
      rw [hc] at hL
      simp at hL
    have hres : resolve_signal highs lows = some (.BUY, l.2) := by
      simp only [resolve_signal, hH, hL]
    refine ⟨?_, ?_, ?_, ?_⟩
    · rw [hres]
      simp [hlne]
    · intro l' _ hsome
      obtain rfl : l = l' := Option.some.inj hsome
      exact hres
    · intro h' hemp _
      exact absurd hemp hlne
    · intro h' l' hsome _
      exact Option.noConfusion hsome
  · have h2 : lows = [] := List.getLast?_eq_none_iff.1 hL
    have hhne : highs ≠ [] := by
      intro hc
      rw [hc] at hH
      simp at hH
    have hres : resolve_signal highs lows = some (.SELL, h.2) := by
      simp only [resolve_signal, hH, hL]
    refine ⟨?_, ?_, ?_, ?_⟩
    · rw [hres]
      simp [hhne]
    · intro l' hemp _
      exact absurd hemp hhne
    · intro h' _ hsome
      obtain rfl : h = h' := Option.some.inj hsome
      exact hres
    · intro h' l' _ hsome
      exact Option.noConfusion hsome
  · have hhne : highs ≠ [] := by
      intro hc
      rw [hc] at hH
      simp at hH
    have hlne : lows ≠ [] := by
      intro hc
      rw [hc] at hL
      simp at hL
    have hres : resolve_signal highs lows =
        if h.1 < l.1 then some (.BUY, l.2) else some (.SELL, h.2) := by
      simp only [resolve_signal, hH, hL]
    refine ⟨?_, ?_, ?_, ?_⟩
    · rw [hres]
      constructor
      · intro hc
        by_cases hcc : h.1 < l.1 <;> simp [hcc] at hc
      · rintro ⟨hc, -⟩
        exact absurd hc hhne
    · intro l' hemp _
      exact absurd hemp hhne
    · intro h' hemp _
      exact absurd hemp hlne
    · intro h' l' hh' hl'
      obtain rfl : h = h' := Option.some.inj hh'
      obtain rfl : l = l' := Option.some.inj hl'
      refine ⟨?_, ?_, ?_⟩
      · intro hc
        rw [hres, if_pos hc]
      · intro hc
        rw [hres, if_neg (Nat.lt_asymm hc)]
      · intro hc
        rw [hres, if_neg (by omega)]

/-- Claim C3: `get_latest_signal` returns NONE exactly when the chosen
tier has neither highs nor lows; a lone last low yields BUY at its price,
a lone last high SELL at its price; with both present the larger (more
recent) index wins, and an equal-index tie resolves to SELL. -/
theorem latest_signal_cases (s : List Candle) (level : String)
    (highs lows : List (Nat × ℚ))
    (hh : highs = if level = "longterm" then long_term_highs s else intermediate_highs s)
    (hl : lows = if level = "longterm" then long_term_lows s else intermediate_lows s) :
    (get_latest_signal s level = none ↔ highs = [] ∧ lows = []) ∧
    (∀ l, highs = [] → lows.getLast? = some l →
      get_latest_signal s level = some (.BUY, l.2)) ∧
    (∀ h, lows = [] → highs.getLast? = some h →
      get_latest_signal s level = some (.SELL, h.2)) ∧
    (∀ h l, highs.getLast? = some h → lows.getLast? = some l →
      (h.1 < l.1 → get_latest_signal s level = some (.BUY, l.2)) ∧
      (l.1 < h.1 → get_latest_signal s level = some (.SELL, h.2)) ∧
      (l.1 = h.1 → get_latest_signal s level = some (.SELL, h.2))) := by
  have hres : get_latest_signal s level = resolve_signal highs lows := by
    by_cases hlev : level = "longterm" <;> simp [get_latest_signal, hlev, hh, hl]
  rw [hres]
  exact resolve_signal_spec highs lows

/-- The five resolver cases at concrete series: empty tier, lone low,
lone high, low more recent than high, and an equal-index tie. -/
theorem latest_signal_cases_witness :
    get_latest_signal flatSeries "intermediate" = none ∧
    get_latest_signal onlyLowSeries "intermediate" = some (.BUY, 4) ∧
    get_latest_signal onlyHighSeries "intermediate" = some (.SELL, 16) ∧
    get_latest_signal mixedSeries "intermediate" = some (.BUY, 4) ∧
    get_latest_signal ltSeries "intermediate" = some (.SELL, 16) := by
  refine ⟨?_, ?_, ?_, ?_, ?_⟩
  · exact (latest_signal_cases flatSeries "intermediate"
      (intermediate_highs flatSeries) (intermediate_lows flatSeries)
      (by decide) (by decide)).1.mpr ⟨by decide, by decide⟩
  · exact (latest_signal_cases onlyLowSeries "intermediate"
      (intermediate_highs onlyLowSeries) (intermediate_lows onlyLowSeries)
      (by decide) (by decide)).2.1 (3, 4) (by decide) (by decide)
  · exact (latest_signal_cases onlyHighSeries "intermediate"
      (intermediate_highs onlyHighSeries) (intermediate_lows onlyHighSeries)
      (by decide) (by decide)).2.2.1 (3, 16) (by decide) (by decide)
  · exact ((latest_signal_cases mixedSeries "intermediate"
      (intermediate_highs mixedSeries) (intermediate_lows mixedSeries)
      (by decide) (by decide)).2.2.2 (3, 16) (7, 4) (by decide) (by decide)).1 (by decide)
  · exact ((latest_signal_cases ltSeries "intermediate"
      (intermediate_highs ltSeries) (intermediate_lows ltSeries)
      (by decide) (by decide)).2.2.2 (11, 16) (11, 4) (by decide) (by decide)).2.2 rfl

/-- Claim C10: every level string other than the exact longterm falls
back to the intermediate tier, so the result coincides with an explicit
intermediate query and the short-term tier is never consulted. -/
theorem level_fallback_intermediate (s : List Candle) (level : String)
    (h : level ≠ "longterm") :
    get_latest_signal s level = get_latest_signal s "intermediate" := by
  simp [get_latest_signal, h]

/-- The fallback at the level strings short and an arbitrary word. -/
theorem level_fallback_intermediate_witness :
    get_latest_signal mixedSeries "short" = get_latest_signal mixedSeries "intermediate" ∧
    get_latest_signal mixedSeries "sideways" = get_latest_signal mixedSeries "intermediate" :=
  ⟨level_fallback_intermediate mixedSeries "short" (by decide),
   level_fallback_intermediate mixedSeries "sideways" (by decide)⟩

/-! ### Degenerate inputs -/

theorem swingLowIdxs_nil (lows : List ℚ) (h : lows.length < 3) :
    swingLowIdxs lows = [] := by
  rw [swingLowIdxs, List.filter_eq_nil_iff]
  intro i hi
  rw [List.mem_range] at hi
  simp only [Bool.and_eq_true, decide_eq_true_eq, not_and]
  intro h1 h2
  omega

theorem swingHighIdxs_nil (highs : List ℚ) (h : highs.length < 3) :
    swingHighIdxs highs = [] := by
  rw [swingHighIdxs, List.filter_eq_nil_iff]
  intro i hi
  rw [List.mem_range] at hi
  simp only [Bool.and_eq_true, decide_eq_true_eq, not_and]
  intro h1 h2
  omega

/-- Claim C7: series shorter than three candles produce empty swing sets
at every tier and a NONE signal rather than an error, and an empty trade
list yields the all-zero metrics record rather than an error. -/
theorem degenerate_inputs_empty :
    (∀ s : List Candle, s.length < 3 →
      short_term_highs s = [] ∧ short_term_lows s = [] ∧
      intermediate_highs s = [] ∧ intermediate_lows s = [] ∧
      long_term_highs s = [] ∧ long_term_lows s = [] ∧
      ∀ level, get_latest_signal s level = none) ∧
    (∀ (ic c : ℚ) (eqc : List (Nat × ℚ × Int)),
      calculate_metrics ic c [] eqc = ⟨0, 0, 0, 0, 0, 0, 0, 0, 0, 0⟩) := by
  constructor
  · intro s hlen
    have hlow : swingLowIdxs (s.map Candle.low) = [] :=
      swingLowIdxs_nil _ (by rw [List.length_map]; exact hlen)
    have hhigh : swingHighIdxs (s.map Candle.high) = [] :=
      swingHighIdxs_nil _ (by rw [List.length_map]; exact hlen)
    have h1 : short_term_highs s = [] := by rw [short_term_highs, hhigh]; rfl
    have h2 : short_term_lows s = [] := by rw [short_term_lows, hlow]; rfl
    have h3 : intermediate_highs s = [] := by
      rw [intermediate_highs, h1]; rfl
    have h4 : intermediate_lows s = [] := by
      rw [intermediate_lows, h2]; rfl
    have h5 : long_term_highs s = [] := by rw [long_term_highs, h3]; rfl
    have h6 : long_term_lows s = [] := by rw [long_term_lows, h4]; rfl
    refine ⟨h1, h2, h3, h4, h5, h6, ?_⟩
    intro level
    by_cases hlev : level = "longterm" <;>
      simp [get_latest_signal, hlev, h3, h4, h5, h6, resolve_signal]
  · intro ic c eqc
    rfl

/-- Degenerate behavior at a two-candle series and an empty trade list. -/
theorem degenerate_inputs_empty_witness :
    (short_term_highs tinySeries = [] ∧ short_term_lows tinySeries = [] ∧
      intermediate_highs tinySeries = [] ∧ intermediate_lows tinySeries = [] ∧
      long_term_highs tinySeries = [] ∧ long_term_lows tinySeries = [] ∧
      ∀ level, get_latest_signal tinySeries level = none) ∧
    calculate_metrics 10000 10000 [] [] = ⟨0, 0, 0, 0, 0, 0, 0, 0, 0, 0⟩ :=
  ⟨degenerate_inputs_empty.1 tinySeries (by decide),
   degenerate_inputs_empty.2 10000 10000 []⟩


/-! ### The live risk engine -/

theorem pnl_pct_of_eq (side : PositionSide) (entry current : ℚ) :
    pnl_pct_of side entry current =
      (if side = .LONG then (current - entry) / entry else (entry - current) / entry) * 100 := by
  cases side <;> simp [pnl_pct_of]

/-- Claim C4: the risk engine multiplies the PnL percentage
((current − entry)/entry × 100 for LONG, (entry − current)/entry × 100 for
SHORT) by the leverage and checks stop-loss, take-profit and trailing-stop
in that order: the first enabled true condition fires, a disabled check
never fires, and a trailing exit implies the two earlier checks did not
fire; concretely with leverage 3, stop loss 5%, entry 100 LONG, price
98.33 closes with the stop-loss reason while price 100 does not close. -/
theorem risk_engine_priority (cfg : BotConfig) (st : BotState) (side : PositionSide)
    (entry price : ℚ)
    (hpos : st.current_position = some side)
    (hentry : st.position_entry_price = some entry)
    (pnl : ℚ)
    (hpnl : pnl =
      (if side = .LONG then (price - entry) / entry else (entry - price) / entry)
        * 100 * cfg.LEVERAGE) :
    (cfg.USE_STOP_LOSS = true → pnl ≤ -cfg.STOP_LOSS_PCT →
      (check_stop_loss_take_profit cfg st price).2 = (true, some .stopLoss)) ∧
    ((cfg.USE_STOP_LOSS = true → -cfg.STOP_LOSS_PCT < pnl) →
      cfg.USE_TAKE_PROFIT = true → cfg.TAKE_PROFIT_PCT ≤ pnl →
      (check_stop_loss_take_profit cfg st price).2 = (true, some .takeProfit)) ∧
    (cfg.USE_STOP_LOSS = false →
      (check_stop_loss_take_profit cfg st price).2.2 ≠ some .stopLoss) ∧
    (cfg.USE_TAKE_PROFIT = false →
      (check_stop_loss_take_profit cfg st price).2.2 ≠ some .takeProfit) ∧
    (cfg.USE_TRAILING_STOP = false →
      (check_stop_loss_take_profit cfg st price).2.2 ≠ some .trailingStop) ∧
    ((check_stop_loss_take_profit cfg st price).2.2 = some .trailingStop →
      (cfg.USE_STOP_LOSS = true → -cfg.STOP_LOSS_PCT < pnl) ∧
      (cfg.USE_TAKE_PROFIT = true → pnl < cfg.TAKE_PROFIT_PCT)) ∧
    (check_stop_loss_take_profit lev3slCfg long100 (9833/100)).2 = (true, some .stopLoss) ∧
    (check_stop_loss_take_profit lev3slCfg long100 100).2 = (false, none) := by
  have hval : pnl_pct_of side entry price * cfg.LEVERAGE = pnl := by
    rw [hpnl, pnl_pct_of_eq]
  simp only [check_stop_loss_take_profit, hpos, hentry, hval]
  refine ⟨?_, ?_, ?_, ?_, ?_, ?_, ?_, ?_⟩
  · intro hsl hle
    rw [if_pos ⟨hsl, hle⟩]
  · intro hnsl htp hge
    rw [if_neg fun hc => absurd hc.2 (not_le.mpr (hnsl hc.1)), if_pos ⟨htp, hge⟩]
  · intro hf
    split_ifs with h1 h2 h3 h4 h5 <;> simp_all
  · intro hf
    split_ifs with h1 h2 h3 h4 h5 <;> simp_all
  · intro hf
    split_ifs with h1 h2 h3 h4 h5 <;> simp_all
  · intro htrail
    split_ifs at htrail with h1 h2 <;> simp_all
  · with_unfolding_all decide
  · with_unfolding_all decide

/-- The stop-loss and take-profit branches fired at concrete inputs
through the priority theorem. -/
theorem risk_engine_priority_witness :
    (check_stop_loss_take_profit ⟨1, true, 5, false, 10, false, 3, 2⟩
      ⟨some .LONG, some 100, none⟩ 90).2 = (true, some .stopLoss) ∧
    (check_stop_loss_take_profit ⟨1, false, 5, true, 10, false, 3, 2⟩
      ⟨some .LONG, some 100, none⟩ 115).2 = (true, some .takeProfit) := by
  constructor
  · exact (risk_engine_priority ⟨1, true, 5, false, 10, false, 3, 2⟩
      ⟨some .LONG, some 100, none⟩ .LONG 100 90 rfl rfl _ rfl).1 rfl (by norm_num)
  · exact (risk_engine_priority ⟨1, false, 5, true, 10, false, 3, 2⟩
      ⟨some .LONG, some 100, none⟩ .LONG 100 115 rfl rfl _ rfl).2.1
      (fun h => Bool.noConfusion h) rfl (by norm_num)

/-- Claim C1 counterexample: with LONG entry 100, leverage 1, arming
threshold 2% and trailing threshold 3%, evaluating at 105 (arms, peak 105)
and then at 101.7 (retracement 3.14% from the peak) returns
should_close = false, not true: the 1.7% current PnL is below the arming
threshold again, so the trailing stop is not armed persistently. -/
theorem trailing_stop_not_latched_cex :
    (check_stop_loss_take_profit trailCfg
      (check_stop_loss_take_profit trailCfg long100 105).1 (1017/10)).2.1 = false := by
  with_unfolding_all decide

/-- Claim C1 amended: the trailing stop is gated by the CURRENT leveraged
PnL each evaluation (no latching): after 105 then 101.7 the check returns
(false, none) because 1.7% < 2%, while after 110 then 106.5 (current PnL
6.5% ≥ 2%, retracement 3.18% ≥ 3%) it closes with the trailing reason. -/
theorem trailing_stop_current_profit_gate :
    (check_stop_loss_take_profit trailCfg
      (check_stop_loss_take_profit trailCfg long100 105).1 (1017/10)).2 = (false, none) ∧
    (check_stop_loss_take_profit trailCfg
      (check_stop_loss_take_profit trailCfg long100 110).1 (213/2)).2
        = (true, some .trailingStop) := by
  constructor <;> with_unfolding_all decide

/-- Claim C9 counterexample: with the stop loss also enabled, the very
first evaluation of an open LONG at price 94 fires the stop loss and
returns before the trailing block, so the peak price is NOT initialized
to the current price of that evaluation. -/
theorem peak_update_skipped_on_stop_cex :
    (check_stop_loss_take_profit slTrailCfg long100 94).1.position_peak_price = none ∧
    (check_stop_loss_take_profit slTrailCfg long100 94).2 = (true, some .stopLoss) := by
  constructor <;> with_unfolding_all decide

/-- Claim C9 amended: on every evaluation with the trailing stop enabled,
an open position, and neither stop-loss nor take-profit firing first, the
peak price is initialized to the current price when unset — even below
the entry and before arming — and otherwise moves to max(peak, price) for
LONG and min(peak, price) for SHORT, hence never unfavorably. -/
theorem peak_price_favorable_update (cfg : BotConfig) (st : BotState)
    (side : PositionSide) (entry price : ℚ)
    (hpos : st.current_position = some side)
    (hentry : st.position_entry_price = some entry)
    (htr : cfg.USE_TRAILING_STOP = true)
    (hsl : ¬(cfg.USE_STOP_LOSS = true ∧
      pnl_pct_of side entry price * cfg.LEVERAGE ≤ -cfg.STOP_LOSS_PCT))
    (htp : ¬(cfg.USE_TAKE_PROFIT = true ∧
      cfg.TAKE_PROFIT_PCT ≤ pnl_pct_of side entry price * cfg.LEVERAGE)) :
    (st.position_peak_price = none →
      (check_stop_loss_take_profit cfg st price).1.position_peak_price = some price) ∧
    (∀ p, st.position_peak_price = some p →
      (check_stop_loss_take_profit cfg st price).1.position_peak_price =
        some (if side = .LONG then max p price else min p price)) := by
  have hstep : (check_stop_loss_take_profit cfg st price).1.position_peak_price
      = some (update_peak side st.position_peak_price price) := by
    simp only [check_stop_loss_take_profit, hpos, hentry]
    rw [if_neg hsl, if_neg htp, if_pos htr]
    split_ifs <;> rfl
  refine ⟨?_, ?_⟩
  · intro hnone
    rw [hstep, hnone]
    rfl
  · intro p hp
    rw [hstep, hp]
    cases side
    · simp only [update_peak, if_pos rfl]
      congr 1
      rw [max_def]
      split_ifs with h1 h2 <;> first | rfl | linarith
    · have hne : (PositionSide.SHORT = PositionSide.LONG) = False := by simp
      simp only [update_peak, hne, if_false]
      congr 1
      rw [min_def]
      split_ifs with h1 h2 <;> first | rfl | linarith

/-- Peak initialization below entry before arming, and peak retention on
an unfavorable move, at concrete inputs. -/
theorem peak_price_favorable_update_witness :
    (check_stop_loss_take_profit trailCfg long100 95).1.position_peak_price = some 95 ∧
    (check_stop_loss_take_profit trailCfg
      ⟨some .LONG, some 100, some 105⟩ 95).1.position_peak_price = some 105 := by
  constructor
  · exact (peak_price_favorable_update trailCfg long100 .LONG 100 95 rfl rfl rfl
      (fun hc => Bool.noConfusion hc.1) (fun hc => Bool.noConfusion hc.1)).1 rfl
  · have h := (peak_price_favorable_update trailCfg ⟨some .LONG, some 100, some 105⟩
      .LONG 100 95 rfl rfl rfl
      (fun hc => Bool.noConfusion hc.1) (fun hc => Bool.noConfusion hc.1)).2 105 rfl
    rw [h]
    norm_num


/-! ### Backtest loop lemmas -/

theorem backtest_step_zero (st : BTState) (i : Nat) (p : ℚ) :
    (backtest_step st (i, p, 0)).position = st.position ∧
    (backtest_step st (i, p, 0)).entry_price = st.entry_price ∧
    (backtest_step st (i, p, 0)).entry_date = st.entry_date ∧
    (backtest_step st (i, p, 0)).capital = st.capital ∧
    (backtest_step st (i, p, 0)).trades = st.trades := by
  simp [backtest_step]

theorem backtest_step_buy (st : BTState) (i : Nat) (p : ℚ) (h : st.position = 0) :
    (backtest_step st (i, p, 1)).position = 1 ∧
    (backtest_step st (i, p, 1)).entry_price = p ∧
    (backtest_step st (i, p, 1)).entry_date = i ∧
    (backtest_step st (i, p, 1)).capital = st.capital ∧
    (backtest_step st (i, p, 1)).trades = st.trades := by
  simp [backtest_step, h]

theorem backtest_step_sell (st : BTState) (i : Nat) (p : ℚ) (h : st.position = 1) :
    (backtest_step st (i, p, -1)).position = -1 ∧
    (backtest_step st (i, p, -1)).entry_price = p ∧
    (backtest_step st (i, p, -1)).entry_date = i ∧
    (backtest_step st (i, p, -1)).capital = st.capital + (p - st.entry_price) ∧
    (backtest_step st (i, p, -1)).trades = st.trades ++
      [⟨st.entry_date, i, .LONG, st.entry_price, p, p - st.entry_price,
        st.capital + (p - st.entry_price)⟩] := by
  simp [backtest_step, h]

theorem close_final_short (s : List Candle) (st : BTState) (h : st.position = -1) :
    (close_final s st).capital =
      st.capital + (st.entry_price - (s.map Candle.close).getLast?.getD 0) ∧
    (close_final s st).trades = st.trades ++
      [⟨st.entry_date, s.length - 1, .SHORT, st.entry_price,
        (s.map Candle.close).getLast?.getD 0,
        st.entry_price - (s.map Candle.close).getLast?.getD 0,
        st.capital + (st.entry_price - (s.map Candle.close).getLast?.getD 0)⟩] := by
  simp [close_final, h]

theorem foldl_zero_sig (L : List (Nat × ℚ × Int)) (st : BTState)
    (h : ∀ x ∈ L, x.2.2 = 0) :
    (L.foldl backtest_step st).position = st.position ∧
    (L.foldl backtest_step st).entry_price = st.entry_price ∧
    (L.foldl backtest_step st).entry_date = st.entry_date ∧
    (L.foldl backtest_step st).capital = st.capital ∧
    (L.foldl backtest_step st).trades = st.trades := by
  induction L generalizing st with
  | nil => exact ⟨rfl, rfl, rfl, rfl, rfl⟩
  | cons x xs ih =>
    have hx : x.2.2 = 0 := h x (List.mem_cons_self x xs)
    have hstep := backtest_step_zero st x.1 x.2.1
    have hx' : (x.1, x.2.1, (0 : Int)) = x := by
      rw [← hx]
    rw [hx'] at hstep
    have ihx := ih (backtest_step st x) fun y hy => h y (List.mem_cons_of_mem x hy)
    rw [List.foldl_cons]
    exact ⟨ihx.1.trans hstep.1, ihx.2.1.trans hstep.2.1, ihx.2.2.1.trans hstep.2.2.1,
      ihx.2.2.2.1.trans hstep.2.2.2.1, ihx.2.2.2.2.trans hstep.2.2.2.2⟩

theorem signal_at_pair (iH iL : Nat) (vH vL : ℚ) (i : Nat) :
    signal_at [(iH, vH)] [(iL, vL)] i =
      if iH = i then -1 else if iL = i then 1 else 0 := by
  simp [signal_at]

theorem backtest_inputs_int (s : List Candle) :
    backtest_inputs s true false = (List.range s.length).map fun i =>
      (i, (s.map Candle.close).getD i 0,
        signal_at (intermediate_highs s) (intermediate_lows s) i) := rfl

theorem range'_split (a b n : Nat) (h : b ≤ n) :
    List.range' a n = List.range' a b ++ List.range' (a + b) (n - b) := by
  have e := List.range'_append_1 a b (n - b)
  rw [Nat.sub_add_cancel h] at e
  exact e.symm


/-- A backtest on the intermediate tier whose only signals are one low at
`iL` and one later high at `iH` performs exactly one LONG round trip and
one forced SHORT: it buys at the close of `iL`, reverses at the close of
`iH` (recording the LONG trade), and force-closes the SHORT at the final
close. -/
theorem run_one_low_one_high (s : List Candle) (cap : ℚ) (iL iH : Nat) (vL vH : ℚ)
    (hlo : intermediate_lows s = [(iL, vL)])
    (hhi : intermediate_highs s = [(iH, vH)])
    (hord : iL < iH) :
    (run_backtest s cap true false).trades =
      [⟨iL, iH, .LONG, (s.map Candle.close).getD iL 0, (s.map Candle.close).getD iH 0,
          (s.map Candle.close).getD iH 0 - (s.map Candle.close).getD iL 0,
          cap + ((s.map Candle.close).getD iH 0 - (s.map Candle.close).getD iL 0)⟩,
       ⟨iH, s.length - 1, .SHORT, (s.map Candle.close).getD iH 0,
          (s.map Candle.close).getLast?.getD 0,
          (s.map Candle.close).getD iH 0 - (s.map Candle.close).getLast?.getD 0,
          cap + ((s.map Candle.close).getD iH 0 - (s.map Candle.close).getD iL 0)
            + ((s.map Candle.close).getD iH 0 - (s.map Candle.close).getLast?.getD 0)⟩] ∧
    (run_backtest s cap true false).capital =
      cap + ((s.map Candle.close).getD iH 0 - (s.map Candle.close).getD iL 0)
        + ((s.map Candle.close).getD iH 0 - (s.map Candle.close).getLast?.getD 0) := by
  have hmemH : (iH, vH) ∈ promoteHighs (short_term_highs s) := by
    rw [← intermediate_highs, hhi]
    exact List.mem_singleton_self _
  have hbound' := ((mem_swingHighIdxs (s.map Candle.high) iH).1
    ((mem_short_term_highs s iH vH).1 (mem_promoteHighs_sub _ _ hmemH)).1).2.1
  rw [List.length_map] at hbound'
  have hsig : ∀ i, signal_at (intermediate_highs s) (intermediate_lows s) i
      = if iH = i then -1 else if iL = i then 1 else 0 := by
    intro i
    rw [hhi, hlo, signal_at_pair]
  set f : Nat → Nat × ℚ × Int := fun i =>
    (i, (s.map Candle.close).getD i 0,
      signal_at (intermediate_highs s) (intermediate_lows s) i) with hfdef
  have hfL : f iL = (iL, (s.map Candle.close).getD iL 0, 1) := by
    simp only [hfdef]
    rw [hsig, if_neg (by omega), if_pos rfl]
  have hfH : f iH = (iH, (s.map Candle.close).getD iH 0, -1) := by
    simp only [hfdef]
    rw [hsig, if_pos rfl]
  have hAz : ∀ x ∈ (List.range' 0 iL).map f, x.2.2 = 0 := by
    intro x hx
    simp only [List.mem_map] at hx
    obtain ⟨i, hi, rfl⟩ := hx
    rw [List.mem_range'] at hi
    obtain ⟨j, hj, rfl⟩ := hi
    simp only [hfdef]
    rw [hsig, if_neg (by omega), if_neg (by omega)]
  have hCz : ∀ x ∈ (List.range' (iL + 1) (iH - iL - 1)).map f, x.2.2 = 0 := by
    intro x hx
    simp only [List.mem_map] at hx
    obtain ⟨i, hi, rfl⟩ := hx
    rw [List.mem_range'] at hi
    obtain ⟨j, hj, rfl⟩ := hi
    simp only [hfdef]
    rw [hsig, if_neg (by omega), if_neg (by omega)]
  have hEz : ∀ x ∈ (List.range' (iH + 1) (s.length - iH - 1)).map f, x.2.2 = 0 := by
    intro x hx
    simp only [List.mem_map] at hx
    obtain ⟨i, hi, rfl⟩ := hx
    rw [List.mem_range'] at hi
    obtain ⟨j, hj, rfl⟩ := hi
    simp only [hfdef]
    rw [hsig, if_neg (by omega), if_neg (by omega)]
  simp only [run_backtest]
  rw [backtest_inputs_int, ← hfdef, List.range_eq_range']
  rw [range'_split 0 iL s.length (by omega), show 0 + iL = iL by omega]
  rw [range'_split iL 1 (s.length - iL) (by omega)]
  rw [range'_split (iL + 1) (iH - iL - 1) (s.length - iL - 1) (by omega),
    show iL + 1 + (iH - iL - 1) = iH by omega,
    show s.length - iL - 1 - (iH - iL - 1) = s.length - iH by omega]
  rw [range'_split iH 1 (s.length - iH) (by omega)]
  simp only [List.range'_one, List.map_append, List.foldl_append, List.map_cons,
    List.map_nil, List.foldl_cons, List.foldl_nil]
  rw [hfL, hfH]
  obtain ⟨hA1, hA2, hA3, hA4, hA5⟩ :=
    foldl_zero_sig ((List.range' 0 iL).map f) (initial_state cap) hAz
  obtain ⟨hB1, hB2, hB3, hB4, hB5⟩ :=
    backtest_step_buy (((List.range' 0 iL).map f).foldl backtest_step (initial_state cap))
      iL ((s.map Candle.close).getD iL 0) (hA1.trans rfl)
  obtain ⟨hC1, hC2, hC3, hC4, hC5⟩ :=
    foldl_zero_sig ((List.range' (iL + 1) (iH - iL - 1)).map f)
      (backtest_step (((List.range' 0 iL).map f).foldl backtest_step (initial_state cap))
        (iL, (s.map Candle.close).getD iL 0, 1)) hCz
  obtain ⟨hD1, hD2, hD3, hD4, hD5⟩ :=
    backtest_step_sell
      (((List.range' (iL + 1) (iH - iL - 1)).map f).foldl backtest_step
        (backtest_step (((List.range' 0 iL).map f).foldl backtest_step (initial_state cap))
          (iL, (s.map Candle.close).getD iL 0, 1)))
      iH ((s.map Candle.close).getD iH 0) (hC1.trans hB1)
  have hCcap : (((List.range' (iL + 1) (iH - iL - 1)).map f).foldl backtest_step
      (backtest_step (((List.range' 0 iL).map f).foldl backtest_step (initial_state cap))
        (iL, (s.map Candle.close).getD iL 0, 1))).capital = cap :=
    hC4.trans (hB4.trans (hA4.trans (show (initial_state cap).capital = cap from rfl)))
  have hCtr : (((List.range' (iL + 1) (iH - iL - 1)).map f).foldl backtest_step
      (backtest_step (((List.range' 0 iL).map f).foldl backtest_step (initial_state cap))
        (iL, (s.map Candle.close).getD iL 0, 1))).trades = [] :=
    hC5.trans (hB5.trans (hA5.trans (show (initial_state cap).trades = [] from rfl)))
  rw [hC2.trans hB2, hCcap] at hD4
  rw [hC2.trans hB2, hC3.trans hB3, hCcap, hCtr, List.nil_append] at hD5
  obtain ⟨hE1, hE2, hE3, hE4, hE5⟩ :=
    foldl_zero_sig ((List.range' (iH + 1) (s.length - iH - 1)).map f)
      (backtest_step
        (((List.range' (iL + 1) (iH - iL - 1)).map f).foldl backtest_step
          (backtest_step (((List.range' 0 iL).map f).foldl backtest_step (initial_state cap))
            (iL, (s.map Candle.close).getD iL 0, 1)))
        (iH, (s.map Candle.close).getD iH 0, -1)) hEz
  obtain ⟨hF4, hF5⟩ := close_final_short s
    (((List.range' (iH + 1) (s.length - iH - 1)).map f).foldl backtest_step
      (backtest_step
        (((List.range' (iL + 1) (iH - iL - 1)).map f).foldl backtest_step
          (backtest_step (((List.range' 0 iL).map f).foldl backtest_step (initial_state cap))
            (iL, (s.map Candle.close).getD iL 0, 1)))
        (iH, (s.map Candle.close).getD iH 0, -1)))
    (hE1.trans hD1)
  rw [hE2.trans hD2, hE4.trans hD4] at hF4
  rw [hE2.trans hD2, hE3.trans hD3, hE4.trans hD4, hE5.trans hD5] at hF5
  constructor
  · rw [hF5]
    simp
  · exact hF4


/-- Claim C2 counterexample: on a 15-candle series with exactly one
intermediate low (close 90) followed by exactly one intermediate high
(close 110) and a final close of 110, the backtest records TWO trades,
not one: the SELL signal at the high reverses into a short, which the
end-of-data step force-closes as a second trade. -/
theorem backtest_two_trades_cex :
    (run_backtest btSeries 10000 true false).trades.length = 2 := by
  have h := run_one_low_one_high btSeries 10000 4 10 90 110
    (by decide) (by decide) (by omega)
  rw [h.1]
  rfl

/-- Claim C2 amended: a backtest over a series whose intermediate tier
holds exactly one low (at close 90) then exactly one high (at close 110),
ending at close 110, with starting capital 10000, produces exactly TWO
trade records — the LONG round trip (entry 90, exit 110, PnL 20) and the
SHORT opened by the reversal at 110 and force-closed at the final close
110 with PnL 0 — and ending capital 10020. -/
theorem backtest_round_trip (s : List Candle) (iL iH : Nat) (vL vH : ℚ)
    (hlo : intermediate_lows s = [(iL, vL)])
    (hhi : intermediate_highs s = [(iH, vH)])
    (hord : iL < iH)
    (hcL : (s.map Candle.close).getD iL 0 = 90)
    (hcH : (s.map Candle.close).getD iH 0 = 110)
    (hfp : (s.map Candle.close).getLast?.getD 0 = 110) :
    (run_backtest s 10000 true false).trades =
      [⟨iL, iH, .LONG, 90, 110, 20, 10020⟩,
       ⟨iH, s.length - 1, .SHORT, 110, 110, 0, 10020⟩] ∧
    (run_backtest s 10000 true false).capital = 10020 := by
  have h := run_one_low_one_high s 10000 iL iH vL vH hlo hhi hord
  rw [hcL, hcH, hfp] at h
  norm_num at h
  exact h

/-- The amended round trip realized on the concrete 15-candle series. -/
theorem backtest_round_trip_witness :
    (run_backtest btSeries 10000 true false).trades =
      [⟨4, 10, .LONG, 90, 110, 20, 10020⟩, ⟨10, 14, .SHORT, 110, 110, 0, 10020⟩] ∧
    (run_backtest btSeries 10000 true false).capital = 10020 := by
  have h := backtest_round_trip btSeries 4 10 90 110 (by decide) (by decide) (by omega)
    (by decide) (by decide) (by decide)
  simpa using h


/-! ### The backtest never applies leverage -/

theorem backtest_step_equity (st : BTState) (x : Nat × ℚ × Int) :
    (backtest_step st x).equity_curve =
      st.equity_curve ++ [(x.1, mark_equity st x.2.1, st.position)] := by
  rcases x with ⟨i, p, g⟩
  simp only [backtest_step]
  split_ifs <;> rfl

theorem foldl_equity (L : List (Nat × ℚ × Int)) (st : BTState) :
    (L.foldl backtest_step st).equity_curve = st.equity_curve ++ equity_samples st L := by
  induction L generalizing st with
  | nil => simp [equity_samples]
  | cons x xs ih =>
    rw [List.foldl_cons, ih, equity_samples, backtest_step_equity]
    simp

theorem equity_samples_getD (L : List (Nat × ℚ × Int)) (st : BTState) (j : Nat)
    (h : j < L.length) :
    (equity_samples st L).getD j (0, 0, 0) =
      ((L.getD j (0, 0, 0)).1,
        mark_equity ((L.take j).foldl backtest_step st) (L.getD j (0, 0, 0)).2.1,
        ((L.take j).foldl backtest_step st).position) := by
  induction L generalizing st j with
  | nil => simp at h
  | cons x xs ih =>
    cases j with
    | zero => rfl
    | succ j =>
      simp only [equity_samples, List.getD_cons_succ, List.take_succ_cons, List.foldl_cons]
      exact ih (backtest_step st x) j (by simpa using h)

theorem close_final_equity (s : List Candle) (st : BTState) :
    (close_final s st).equity_curve = st.equity_curve := by
  simp only [close_final]
  split_ifs <;> rfl

theorem backtest_inputs_length (s : List Candle) (ui ul : Bool) :
    (backtest_inputs s ui ul).length = s.length := by
  simp [backtest_inputs]

theorem backtest_inputs_getD (s : List Candle) (ui ul : Bool) (j : Nat) (h : j < s.length) :
    ∃ g : Int, (backtest_inputs s ui ul).getD j (0, 0, 0) =
      (j, (s.map Candle.close).getD j 0, g) := by
  simp only [backtest_inputs]
  rw [List.getD_eq_getElem?_getD, List.getElem?_map, List.getElem?_range h]
  exact ⟨_, rfl⟩

theorem backtest_step_trades (st : BTState) (x : Nat × ℚ × Int) :
    (backtest_step st x).trades = st.trades ∨
    ∃ tr, (backtest_step st x).trades = st.trades ++ [tr] ∧ unleveraged_pnl tr := by
  rcases x with ⟨i, p, g⟩
  simp only [backtest_step]
  split_ifs with h1 h2 h3 h4
  · right
    exact ⟨_, rfl, by simp [unleveraged_pnl]⟩
  · left
    rfl
  · right
    exact ⟨_, rfl, by simp [unleveraged_pnl]⟩
  · left
    rfl
  · left
    rfl

theorem foldl_pnl (L : List (Nat × ℚ × Int)) (st : BTState)
    (h : ∀ t ∈ st.trades, unleveraged_pnl t) :
    ∀ t ∈ (L.foldl backtest_step st).trades, unleveraged_pnl t := by
  induction L generalizing st with
  | nil => exact h
  | cons x xs ih =>
    rw [List.foldl_cons]
    apply ih
    rcases backtest_step_trades st x with heq | ⟨tr, heq, htr⟩
    · rw [heq]
      exact h
    · rw [heq]
      intro t ht
      rcases List.mem_append.1 ht with ht | ht
      · exact h t ht
      · rw [List.mem_singleton.1 ht]
        exact htr

theorem close_final_pnl (s : List Candle) (st : BTState)
    (h : ∀ t ∈ st.trades, unleveraged_pnl t) :
    ∀ t ∈ (close_final s st).trades, unleveraged_pnl t := by
  simp only [close_final]
  split_ifs with h1 h2
  · intro t ht
    rcases List.mem_append.1 ht with ht | ht
    · exact h t ht
    · rw [List.mem_singleton.1 ht]
      simp [unleveraged_pnl]
  · intro t ht
    rcases List.mem_append.1 ht with ht | ht
    · exact h t ht
    · rw [List.mem_singleton.1 ht]
      simp [unleveraged_pnl]
  · exact h

/-- Claim C8: the backtest engine never applies leverage: every recorded
trade PnL is the raw price difference (exit − entry for LONG, entry −
exit for SHORT), every equity sample is realized capital plus the
unleveraged (current − entry) × position of the open position, while the
live risk engine multiplies the percentage move by the leverage — at
entry 100 and price 98.33 its stop loss fires with leverage 3 but not
with leverage 1. -/
theorem backtest_unleveraged (s : List Candle) (cap : ℚ) (ui ul : Bool) :
    (∀ t ∈ (run_backtest s cap ui ul).trades,
      t.pnl = if t.type = .LONG then t.exit_price - t.entry_price
        else t.entry_price - t.exit_price) ∧
    (∀ j stj, j < s.length →
      stj = ((backtest_inputs s ui ul).take j).foldl backtest_step (initial_state cap) →
      (run_backtest s cap ui ul).equity_curve.getD j (0, 0, 0) =
        (j,
          if stj.position ≠ 0 then
            stj.capital + ((s.map Candle.close).getD j 0 - stj.entry_price) * (stj.position : ℚ)
          else stj.capital,
          stj.position)) ∧
    (check_stop_loss_take_profit lev3slCfg long100 (9833/100)).2.1 = true ∧
    (check_stop_loss_take_profit ⟨1, true, 5, false, 10, false, 3, 2⟩ long100 (9833/100)).2.1
      = false := by
  refine ⟨?_, ?_, ?_, ?_⟩
  · simp only [run_backtest]
    exact close_final_pnl s _ (foldl_pnl _ _ fun t ht => absurd ht (List.not_mem_nil t))
  · intro j stj hj hstj
    subst hstj
    have h1 : (run_backtest s cap ui ul).equity_curve =
        equity_samples (initial_state cap) (backtest_inputs s ui ul) := by
      simp only [run_backtest]
      rw [close_final_equity, foldl_equity]
      rfl
    rw [h1]
    have hlen : j < (backtest_inputs s ui ul).length := by
      rw [backtest_inputs_length]
      exact hj
    rw [equity_samples_getD _ _ _ hlen]
    obtain ⟨g, hg⟩ := backtest_inputs_getD s ui ul j hj
    rw [hg]
    rfl
  · with_unfolding_all decide
  · with_unfolding_all decide

/-- The unleveraged invariants at the concrete 15-candle backtest: the
LONG trade PnL is the raw 110 − 90, and the first equity sample is the
flat starting capital. -/
theorem backtest_unleveraged_witness :
    ((⟨4, 10, .LONG, 90, 110, 20, 10020⟩ : Trade).pnl = 110 - 90) ∧
    (run_backtest btSeries 10000 true false).equity_curve.getD 0 (0, 0, 0)
      = (0, 10000, 0) := by
  constructor
  · have hrun := run_one_low_one_high btSeries 10000 4 10 90 110
      (by decide) (by decide) (by omega)
    rw [show ((btSeries.map Candle.close).getD 4 0 : ℚ) = 90 by decide,
      show ((btSeries.map Candle.close).getD 10 0 : ℚ) = 110 by decide,
      show ((btSeries.map Candle.close).getLast?.getD 0 : ℚ) = 110 by decide] at hrun
    norm_num at hrun
    have hmem : (⟨4, 10, .LONG, 90, 110, 20, 10020⟩ : Trade)
        ∈ (run_backtest btSeries 10000 true false).trades := by
      rw [hrun.1]
      exact List.mem_cons_self _ _
    have := (backtest_unleveraged btSeries 10000 true false).1 _ hmem
    simpa using this
  · have h2 := (backtest_unleveraged btSeries 10000 true false).2.1 0
      (initial_state 10000) (by decide) (by simp)
    rw [h2]
    rfl


end LWBot
